import Mathlib

/-!
Verification of the download queue and process-orchestration subsystem of
apprenticeVr against its natural-language specification.

The definitions below are a shallow embedding of the TypeScript sources:

* `DownloadProcessor` (transfer driver) from `src/main/services/download/processor.ts`
  (shipped inside `src/src/main/index.ts` of the source bundle):
  `updateItemStatus`, `cancelDownload`, `startDownload` (its configuration
  prelude, its rclone data-event handler, and its process-exit handling).
* `GameService.extractMetaArchive` (7z extraction failure classification).
* The remote object-identifier computation (MD5 of `releaseName + "\n"`).

`QueueManager` (`queueManager.ts`) is not part of the provided sources; its
`findItem`/`updateItem` are modelled from the spec where noted.  Machine
integers are modelled as `Nat` with explicit `% 2 ^ 32`; subprocess I/O is
modelled as explicit data events (lists of characters) fed to the embedded
handlers; item state is threaded explicitly.
-/

set_option maxRecDepth 100000

namespace ApprenticeVr

/-! ## MD5 (the Node crypto md5 hash collaborator)

A byte-level implementation of MD5, used by both the code-side and the
spec-side definition of the remote object identifier.  Bytes are `Nat`s
below 256; 32-bit words are `Nat`s reduced modulo `2 ^ 32`. -/

def m32 : Nat := 4294967296

def add32 (a b : Nat) : Nat := (a + b) % m32

def rotl32 (x s : Nat) : Nat := (x % m32 * 2 ^ s + x % m32 / 2 ^ (32 - s)) % m32

def not32 (x : Nat) : Nat := (m32 - 1) - x % m32

def md5K : List Nat :=
  [0xd76aa478, 0xe8c7b756, 0x242070db, 0xc1bdceee,
   0xf57c0faf, 0x4787c62a, 0xa8304613, 0xfd469501,
   0x698098d8, 0x8b44f7af, 0xffff5bb1, 0x895cd7be,
   0x6b901122, 0xfd987193, 0xa679438e, 0x49b40821,
   0xf61e2562, 0xc040b340, 0x265e5a51, 0xe9b6c7aa,
   0xd62f105d, 0x02441453, 0xd8a1e681, 0xe7d3fbc8,
   0x21e1cde6, 0xc33707d6, 0xf4d50d87, 0x455a14ed,
   0xa9e3e905, 0xfcefa3f8, 0x676f02d9, 0x8d2a4c8a,
   0xfffa3942, 0x8771f681, 0x6d9d6122, 0xfde5380c,
   0xa4beea44, 0x4bdecfa9, 0xf6bb4b60, 0xbebfbc70,
   0x289b7ec6, 0xeaa127fa, 0xd4ef3085, 0x04881d05,
   0xd9d4d039, 0xe6db99e5, 0x1fa27cf8, 0xc4ac5665,
   0xf4292244, 0x432aff97, 0xab9423a7, 0xfc93a039,
   0x655b59c3, 0x8f0ccc92, 0xffeff47d, 0x85845dd1,
   0x6fa87e4f, 0xfe2ce6e0, 0xa3014314, 0x4e0811a1,
   0xf7537e82, 0xbd3af235, 0x2ad7d2bb, 0xeb86d391]

def md5S : List Nat :=
  [7, 12, 17, 22, 7, 12, 17, 22, 7, 12, 17, 22, 7, 12, 17, 22,
   5, 9, 14, 20, 5, 9, 14, 20, 5, 9, 14, 20, 5, 9, 14, 20,
   4, 11, 16, 23, 4, 11, 16, 23, 4, 11, 16, 23, 4, 11, 16, 23,
   6, 10, 15, 21, 6, 10, 15, 21, 6, 10, 15, 21, 6, 10, 15, 21]

def md5Pad (msg : List Nat) : List Nat :=
  let len := msg.length
  let zeros := (120 - (len + 1) % 64) % 64
  let lenBytes := (List.range 8).map (fun i => len * 8 / 2 ^ (8 * i) % 256)
  msg ++ 0x80 :: List.replicate zeros 0 ++ lenBytes

def wordsLE : List Nat → List Nat
  | b0 :: b1 :: b2 :: b3 :: rest =>
      (b0 + b1 * 256 + b2 * 65536 + b3 * 16777216) :: wordsLE rest
  | _ => []

def chunks64Go : Nat → List Nat → List (List Nat)
  | 0, _ => []
  | _, [] => []
  | fuel + 1, a :: rest => (a :: rest).take 64 :: chunks64Go fuel ((a :: rest).drop 64)

def chunks64 (l : List Nat) : List (List Nat) := chunks64Go l.length l

structure Md5State where
  a : Nat
  b : Nat
  c : Nat
  d : Nat

def md5Mix (st : Md5State) (i : Nat) : Nat × Nat :=
  if i < 16 then ((st.b &&& st.c) ||| (not32 st.b &&& st.d), i)
  else if i < 32 then ((st.d &&& st.b) ||| (not32 st.d &&& st.c), (5 * i + 1) % 16)
  else if i < 48 then (st.b ^^^ st.c ^^^ st.d, (3 * i + 5) % 16)
  else (st.c ^^^ (st.b ||| not32 st.d), 7 * i % 16)

def md5Round (w : List Nat) (st : Md5State) (i : Nat) : Md5State :=
  let fg := md5Mix st i
  let tmp := add32 st.a (add32 fg.1 (add32 (md5K.getD i 0) (w.getD fg.2 0)))
  { a := st.d, b := add32 st.b (rotl32 tmp (md5S.getD i 0)), c := st.b, d := st.c }

def md5Block (st : Md5State) (block : List Nat) : Md5State :=
  let w := wordsLE block
  let r := (List.range 64).foldl (md5Round w) st
  { a := add32 st.a r.a, b := add32 st.b r.b, c := add32 st.c r.c, d := add32 st.d r.d }

def md5InitState : Md5State :=
  { a := 0x67452301, b := 0xefcdab89, c := 0x98badcfe, d := 0x10325476 }

def word4LE (x : Nat) : List Nat :=
  [x % 256, x / 256 % 256, x / 65536 % 256, x / 16777216 % 256]

def md5Digest (msg : List Nat) : List Nat :=
  let st := (chunks64 (md5Pad msg)).foldl md5Block md5InitState
  word4LE st.a ++ word4LE st.b ++ word4LE st.c ++ word4LE st.d

/-- Lowercase hexadecimal digit characters, as produced by the Node
hex digest rendering. -/
def hexDigit (n : Nat) : Char := ("0123456789abcdef").data.getD (n % 16) 'f'

def byteHex (b : Nat) : List Char := [hexDigit (b / 16), hexDigit b]

/-- Model of the Node crypto call chain createHash, update, digest with
hex output: the lowercase hexadecimal rendering of the 16-byte MD5
digest. -/
def md5HexOfBytes (msg : List Nat) : String :=
  String.mk ((md5Digest msg).flatMap byteHex)

/-- UTF-8 encoding of one character (Node `Buffer` / `hash.update` default
encoding for strings). -/
def utf8Char (c : Char) : List Nat :=
  let n := c.toNat
  if n < 128 then [n]
  else if n < 2048 then [192 + n / 64, 128 + n % 64]
  else if n < 65536 then [224 + n / 4096, 128 + n / 64 % 64, 128 + n % 64]
  else [240 + n / 262144, 128 + n / 4096 % 64, 128 + n / 64 % 64, 128 + n % 64]

def utf8Bytes (s : String) : List Nat := s.data.flatMap utf8Char

/-! ## Remote object identifier and rclone invocation (code side)

From `DownloadProcessor.startDownload`: the MD5 hex digest of the release
name with a newline appended, the rclone source string built from it, and
the rclone argument vector of the execa invocation. -/

def gameNameHash (releaseName : String) : String :=
  md5HexOfBytes (utf8Bytes (releaseName ++ "\n"))

def rcloneSource (releaseName : String) : String := ":http:/" ++ gameNameHash releaseName

def rcloneArgs (releaseName downloadPath baseUri : String) : List String :=
  ["copy", rcloneSource releaseName, downloadPath, "--http-url", baseUri,
   "--no-check-certificate", "--progress", "--stats=1s", "--stats-one-line"]

/-- The wording of the spec for the remote addressing scheme (section 6):
"the remote object identifier for a release is the lowercase hexadecimal MD5
digest of the UTF-8 bytes of `releaseName` concatenated with a single
trailing newline character".  Stated directly over bytes: the UTF-8 bytes of
`releaseName` followed by the single byte 10. -/
def specObjectId (releaseName : String) : String :=
  md5HexOfBytes (utf8Bytes releaseName ++ [10])

/-! ## Text utilities: JS string operations used by the drivers

Lines of subprocess output are modelled as `List Char`. -/

/-- JS `String.prototype.includes`: substring containment. -/
def containsSub (pat l : List Char) : Bool :=
  match l with
  | [] => pat.isEmpty
  | _ :: rest => pat.isPrefixOf l || containsSub pat rest

/-- JS whitespace for `\s` / `\S` (the characters relevant to single-line
rclone output; `\n`/`\r` cannot occur inside a split line). -/
def jsIsSpace (c : Char) : Bool :=
  c = ' ' || c = '\t' || c = '\n' || c = '\r' || c = '\x0b' || c = '\x0c' || c = ' '

/-- JS `str.split(/\r\n|\n|\r/)`: split on CRLF, LF or CR (CRLF preferred,
matching the regex alternation order). -/
def splitLinesGo (acc : List Char) : List Char → List (List Char)
  | [] => [acc.reverse]
  | '\r' :: '\n' :: rest => acc.reverse :: splitLinesGo [] rest
  | '\n' :: rest => acc.reverse :: splitLinesGo [] rest
  | '\r' :: rest => acc.reverse :: splitLinesGo [] rest
  | c :: rest => splitLinesGo (c :: acc) rest

def splitLines (l : List Char) : List (List Char) := splitLinesGo [] l

/-- JS string split on the newline character alone. -/
def splitNLGo (acc : List Char) : List Char → List (List Char)
  | [] => [acc.reverse]
  | '\n' :: rest => acc.reverse :: splitNLGo [] rest
  | c :: rest => splitNLGo (c :: acc) rest

def splitNL (l : List Char) : List (List Char) := splitNLGo [] l

/-- Decimal value of a digit run (JS `parseInt(digits, 10)`). -/
def digitsVal (ds : List Char) : Nat :=
  ds.foldl (fun a c => a * 10 + (c.toNat - 48)) 0

/-! ### transferLineRegex = `/, (\d+)%, /`

`line.match` returns the leftmost match; the capture group `(\d+)` is the
maximal digit run at that position (a shorter run would leave a digit where
`%` is required, so backtracking cannot produce a different capture). -/

def matchTransferAt : List Char → Option (List Char)
  | ',' :: ' ' :: rest =>
      let ds := rest.takeWhile Char.isDigit
      if ds.isEmpty then none
      else
        match rest.drop ds.length with
        | '%' :: ',' :: ' ' :: _ => some ds
        | _ => none
  | _ => none

def findTransfer : List Char → Option (List Char)
  | [] => none
  | c :: rest =>
      match matchTransferAt (c :: rest) with
      | some ds => some ds
      | none => findTransfer rest

def parseProgress (l : List Char) : Option Nat := (findTransfer l).map digitsVal

def testTransfer (l : List Char) : Bool := (findTransfer l).isSome

/-! ### etaRegex = `/, ETA (\S+)/` -/

def matchEtaAt : List Char → Option (List Char)
  | ',' :: ' ' :: 'E' :: 'T' :: 'A' :: ' ' :: rest =>
      let t := rest.takeWhile (fun c => !jsIsSpace c)
      if t.isEmpty then none else some t
  | _ => none

def findEta : List Char → Option (List Char)
  | [] => none
  | c :: rest =>
      match matchEtaAt (c :: rest) with
      | some t => some t
      | none => findEta rest

def parseEta (l : List Char) : Option String := (findEta l).map String.mk

def testEta (l : List Char) : Bool := (findEta l).isSome

/-! ### speedRegex = `/, (\d+\.\d+ \S+?B\/s),/`

The lazy `\S+?` consumes the shortest nonempty run of non-space characters
after which the input continues with `B/s,`. -/

def speedLazy (c : Char) : List Char → Option (List Char)
  | 'B' :: '/' :: 's' :: ',' :: _ =>
      if jsIsSpace c then none else some [c, 'B', '/', 's']
  | c2 :: rest2 =>
      if jsIsSpace c then none else (speedLazy c2 rest2).map (fun t => c :: t)
  | [] => none

def matchSpeedAt : List Char → Option (List Char)
  | ',' :: ' ' :: rest =>
      let d1 := rest.takeWhile Char.isDigit
      if d1.isEmpty then none
      else
        match rest.drop d1.length with
        | '.' :: rest2 =>
            let d2 := rest2.takeWhile Char.isDigit
            if d2.isEmpty then none
            else
              match rest2.drop d2.length with
              | ' ' :: c :: rest3 =>
                  (speedLazy c rest3).map (fun t => d1 ++ '.' :: d2 ++ ' ' :: t)
              | _ => none
        | _ => none
  | _ => none

def findSpeed : List Char → Option (List Char)
  | [] => none
  | c :: rest =>
      match matchSpeedAt (c :: rest) with
      | some t => some t
      | none => findSpeed rest

def parseSpeed (l : List Char) : Option String := (findSpeed l).map String.mk

/-! ## Data model

`DownloadItem` from `types.ts` (the fields the transfer driver touches;
`activeProcessHandle` bookkeeping lives in `DriverState` below). -/

inductive DownloadStatus
  | Queued
  | Downloading
  | Extracting
  | Completed
  | Installing
  | InstallError
  | Error
  | Cancelled
deriving DecidableEq

structure DownloadItem where
  releaseName : String
  status : DownloadStatus
  progress : Nat
  error : Option String
  speed : Option String
  eta : Option String
  extractProgress : Option Nat
  downloadPath : Option String
  pid : Option Nat
deriving DecidableEq

/-- A JS partial-update object (`Partial<DownloadItem>`): each field is
either absent from the update (outer `none`) or assigned a value, possibly
`undefined` (inner `none`), which clears the field. -/
structure ItemUpdates where
  status : Option DownloadStatus
  progress : Option Nat
  error : Option (Option String)
  speed : Option (Option String)
  eta : Option (Option String)
  extractProgress : Option (Option Nat)
  downloadPath : Option (Option String)
  pid : Option (Option Nat)
deriving DecidableEq

def noUpdates : ItemUpdates :=
  { status := none, progress := none, error := none, speed := none, eta := none,
    extractProgress := none, downloadPath := none, pid := none }

/-- Field-level merge of an update object into an item. -/
def applyUpdates (it : DownloadItem) (u : ItemUpdates) : DownloadItem :=
  { it with
    status := u.status.getD it.status,
    progress := u.progress.getD it.progress,
    error := u.error.getD it.error,
    speed := u.speed.getD it.speed,
    eta := u.eta.getD it.eta,
    extractProgress := u.extractProgress.getD it.extractProgress,
    downloadPath := u.downloadPath.getD it.downloadPath,
    pid := u.pid.getD it.pid }

/-- Modelled from the spec: `QueueManager.updateItem` (`queueManager.ts` is
not among the provided sources).  Spec 4.1: "applies field-level merge;
returns whether any field actually changed value ...; fails silently
(returns false) if item absent".  The store merges in place, so the item
returned by `findItem` aliases the stored item; in this embedding the
current item value is always read back from the state.  All claims concern
a single release, so the store is modelled as the (at most one) item held
for that release. -/
def updateItem (q : Option DownloadItem) (u : ItemUpdates) : Option DownloadItem × Bool :=
  match q with
  | none => (none, false)
  | some it =>
      let it2 := applyUpdates it u
      (some it2, decide (it2 ≠ it))

/-- State of the transfer driver for one release: the queue entry
(`findItem` view), whether `activeDownloads` holds a process handle for it,
whether output listeners are attached, and how many SIGTERMs were sent. -/
structure DriverState where
  qitem : Option DownloadItem
  handle : Bool
  listeners : Bool
  sigterms : Nat
deriving DecidableEq

def itemStatus (s : DriverState) : Option DownloadStatus := s.qitem.map (·.status)

def itemProgress (s : DriverState) : Nat := (s.qitem.map (·.progress)).getD 0

def itemError (s : DriverState) : Option String := s.qitem.bind (·.error)

def itemSpeed (s : DriverState) : Option String := s.qitem.bind (·.speed)

def itemEta (s : DriverState) : Option String := s.qitem.bind (·.eta)

/-! ## Driver operations (`DownloadProcessor`) -/

/-- Model of `DownloadProcessor.updateItemStatus`: always assigns `status`, `progress`,
`error`, `speed`, `eta` (an omitted argument is `undefined` and clears the
field); `extractProgress` is assigned when given, cleared when the status is
neither `Extracting` nor `Completed`, and left alone otherwise. -/
def driverUpdateItemStatus (s : DriverState) (status : DownloadStatus) (progress : Nat)
    (error speed eta : Option String) (extractProgress : Option Nat) : DriverState :=
  let u : ItemUpdates :=
    { status := some status, progress := some progress, error := some error,
      speed := some speed, eta := some eta,
      extractProgress :=
        if extractProgress.isSome then some extractProgress
        else if status ≠ DownloadStatus.Extracting ∧ status ≠ DownloadStatus.Completed then
          some none
        else none,
      downloadPath := none, pid := none }
  { s with qitem := (updateItem s.qitem u).1 }

/-- JS `errorMsg || item.error` (empty strings are falsy). -/
def jsOrStr (a b : Option String) : Option String :=
  match a with
  | some m => if m = "" then b else some m
  | none => b

/-- Model of `DownloadProcessor.cancelDownload` with a release name, a final status and an optional message:
if a process handle is attached, detach output listeners, send SIGTERM and
drop the handle; then update the item: clear `pid`; set `status` to
`finalStatus` unless the item is in `Error` and `finalStatus` is
`Cancelled`; zero `progress` when `finalStatus` is `Cancelled`; set `error`
to `errorMsg || item.error` when `finalStatus` is `Error`, clear it
otherwise. -/
def cancelDownload (s : DriverState) (finalStatus : DownloadStatus)
    (errorMsg : Option String) : DriverState :=
  let s1 :=
    if s.handle then
      { s with handle := false, listeners := false, sigterms := s.sigterms + 1 }
    else s
  match s1.qitem with
  | none => s1
  | some item =>
      let u : ItemUpdates :=
        { pid := some none,
          status :=
            if item.status = DownloadStatus.Error ∧ finalStatus = DownloadStatus.Cancelled then
              none
            else some finalStatus,
          progress := if finalStatus = DownloadStatus.Cancelled then some 0 else none,
          error :=
            if finalStatus = DownloadStatus.Error then some (jsOrStr errorMsg item.error)
            else some none,
          speed := none, eta := none, extractProgress := none, downloadPath := none }
      { s1 with qitem := (updateItem s1.qitem u).1 }

def authMarker1 : List Char := ("Auth Error").data

def authMarker2 : List Char := ("authentication failed").data

def authFailedMsg : String := "Auth failed (check VRP password?)"

/-- First half of the per-line body of the rclone data-event loop: emit a
progress update when the parsed percentage is at least the current
progress of the item (reading speed and ETA from the line, falling back to
the current item values).  Returns the new state and the progress values passed to
`updateItemStatus` (empty or a singleton). -/
def progressStep (s : DriverState) (line : List Char) : DriverState × List Nat :=
  match parseProgress line with
  | some p =>
      if itemProgress s ≤ p then
        let speed := match parseSpeed line with | some v => some v | none => itemSpeed s
        let eta := match parseEta line with | some v => some v | none => itemEta s
        (driverUpdateItemStatus s DownloadStatus.Downloading p none speed eta none, [p])
      else (s, [])
  | none => (s, [])

/-- Full per-line body of the rclone data-event loop: the progress step,
then the authentication-failure check — on a marker hit the driver
immediately cancels the download with final status `Error` and the auth
message (it does not wait for the process to exit). -/
def processLine (s : DriverState) (line : List Char) : DriverState × List Nat :=
  if containsSub authMarker1 line || containsSub authMarker2 line then
    (cancelDownload (progressStep s line).1 DownloadStatus.Error (some authFailedMsg),
     (progressStep s line).2)
  else progressStep s line

def processLines (s : DriverState) : List (List Char) → DriverState × List Nat
  | [] => (s, [])
  | l :: ls =>
      let r1 := processLine s l
      let r2 := processLines r1.1 ls
      (r2.1, r1.2 ++ r2.2)

/-- Early exit of the data handler when the item is gone or no longer
`Downloading`: detach listeners, kill and drop the handle if still
attached; the buffer is left as it was. -/
def dataStop (s : DriverState) (buffer : List Char) : DriverState × List Char × List Nat :=
  if s.handle then
    ({ s with listeners := false, handle := false, sigterms := s.sigterms + 1 }, buffer, [])
  else (s, buffer, [])

/-- Line buffering of the data handler: append the chunk to the buffer,
split on CRLF/LF/CR, drop empty fragments; if the final fragment matches
both the progress and the ETA pattern it is deemed complete and everything
is processed with the buffer cleared, otherwise the final fragment is
re-buffered and the rest is processed.  Returns (lines to process, new
buffer). -/
def chunkPlan (buffer data : List Char) : List (List Char) × List Char :=
  let buf := buffer ++ data
  let lines := (splitLines buf).filter (fun l => 0 < l.length)
  match lines with
  | [] => ([], buf)
  | _ :: _ =>
      let lastLine := lines.getLastD []
      if testTransfer lastLine && testEta lastLine then (lines, [])
      else (lines.dropLast, lastLine)

/-- One data event of the rclone output stream: re-check the current
status of the item first (stop and kill if it is no longer `Downloading`),
then buffer/split the text and process the complete lines. -/
def processData (s : DriverState) (buffer data : List Char) :
    DriverState × List Char × List Nat :=
  match s.qitem with
  | none => dataStop s buffer
  | some it =>
      if it.status ≠ DownloadStatus.Downloading then dataStop s buffer
      else
        let plan := chunkPlan buffer data
        let r := processLines s plan.1
        (r.1, plan.2, r.2)

/-- A whole sequence of data events, threading state and buffer and
collecting every emitted progress value. -/
def runChunks (s : DriverState) (buffer : List Char) :
    List (List Char) → DriverState × List Char × List Nat
  | [] => (s, buffer, [])
  | d :: ds =>
      let r1 := processData s buffer d
      let r2 := runChunks r1.1 r1.2.1 ds
      (r2.1, r2.2.1, r1.2.2 ++ r2.2.2)

/-! ## Process exit handling of `startDownload` -/

/-- Resolution of `await rcloneProcess`: either the process exited 0, or
execa rejected with an `ExecaError` (exit code, `isCanceled` flag,
`shortMessage`/`message`, combined output), or a non-execa error was
thrown. -/
inductive ExitResult
  | ok
  | failed (exitCode : Int) (isCanceled : Bool) (shortMsg message allOutput : String)
  | thrown (message : String)
deriving DecidableEq

structure Outcome where
  success : Bool
  startExtraction : Bool
deriving DecidableEq

def pidClear : ItemUpdates := { noUpdates with pid := some none }

/-- Handle cleanup: when a handle is attached, drop it and clear the pid
field of the item. -/
def cleanupHandle (s : DriverState) : DriverState :=
  if s.handle then { s with handle := false, qitem := (updateItem s.qitem pidClear).1 }
  else s

/-- The last five newline-separated lines of the output, rejoined with
newlines. -/
def lastFiveLines (out : List Char) : List Char :=
  let parts := splitNL out
  List.intercalate ['\n'] (parts.drop (parts.length - 5))

/-- Diagnostic message for an unexpected rclone failure:
`error.shortMessage || error.message`, with the last five lines of combined
output appended after a `\n...\n` marker when nonempty, truncated to 500
characters. -/
def mkErrorMessage (shortMsg message allOutput : List Char) : List Char :=
  let base := if shortMsg.isEmpty then message else shortMsg
  let tail5 := lastFiveLines allOutput
  let m := if tail5.isEmpty then base else base ++ '\n' :: '.' :: '.' :: '.' :: '\n' :: tail5
  m.take 500

def errOnly (msg : String) : ItemUpdates := { noUpdates with error := some (some msg) }

/-- The tail of `startDownload` after `await rcloneProcess`: the success
path checks that the item is still `Downloading` before signalling the
extraction stage; the catch path ignores exit code 143 (SIGTERM from our
own cancellation), handles the execa isCanceled flag as a fallback, and
otherwise records `Error` with the diagnostic message unless the status was
already `Cancelled`/`Error` (an already-`Error` item only gets its message
refreshed). -/
def handleExit (s : DriverState) (e : ExitResult) : DriverState × Outcome :=
  match e with
  | ExitResult.ok =>
      match s.qitem with
      | some it =>
          if it.status = DownloadStatus.Downloading then
            ({ s with handle := false, qitem := (updateItem s.qitem pidClear).1 },
             { success := true, startExtraction := true })
          else (cleanupHandle s, { success := false, startExtraction := false })
      | none => (cleanupHandle s, { success := false, startExtraction := false })
  | ExitResult.failed code isCanceled shortMsg message allOutput =>
      let stB := itemStatus s
      let curProgress := itemProgress s
      if code = 143 then (cleanupHandle s, { success := false, startExtraction := false })
      else
        let s1 := cleanupHandle s
        if isCanceled then
          if stB ≠ some DownloadStatus.Cancelled ∧ stB ≠ some DownloadStatus.Error then
            (driverUpdateItemStatus s1 DownloadStatus.Cancelled curProgress none none none none,
             { success := false, startExtraction := false })
          else (s1, { success := false, startExtraction := false })
        else
          let msg := String.mk (mkErrorMessage shortMsg.data message.data allOutput.data)
          if stB ≠ some DownloadStatus.Cancelled ∧ stB ≠ some DownloadStatus.Error then
            (driverUpdateItemStatus s1 DownloadStatus.Error curProgress (some msg) none none none,
             { success := false, startExtraction := false })
          else if stB = some DownloadStatus.Error then
            ({ s1 with qitem := (updateItem s1.qitem (errOnly msg)).1 },
             { success := false, startExtraction := false })
          else (s1, { success := false, startExtraction := false })
  | ExitResult.thrown message =>
      let stB := itemStatus s
      let curProgress := itemProgress s
      let s1 := cleanupHandle s
      let msg := String.mk (message.data.take 500)
      if stB ≠ some DownloadStatus.Cancelled ∧ stB ≠ some DownloadStatus.Error then
        (driverUpdateItemStatus s1 DownloadStatus.Error curProgress (some msg) none none none,
         { success := false, startExtraction := false })
      else if stB = some DownloadStatus.Error then
        ({ s1 with qitem := (updateItem s1.qitem (errOnly msg)).1 },
         { success := false, startExtraction := false })
      else (s1, { success := false, startExtraction := false })

/-! ## Configuration prelude of `startDownload` -/

structure VrpConfig where
  baseUri : Option String
  password : Option String
deriving DecidableEq

inductive PreludeResult
  | earlyExit (out : Outcome)
  | spawn (args : List String)
deriving DecidableEq

/-- JS truthiness of an optional string (`undefined` and `""` are falsy). -/
def jsTruthy : Option String → Bool
  | none => false
  | some v => if v = "" then false else true

def mkdirErrorMsg (detail : Option String) (downloadPath : String) : String :=
  match detail with
  | some m => "Failed to create directory: " ++ m
  | none => "Failed to create directory " ++ downloadPath

def pathJoin (a b : String) : String := a ++ "/" ++ b

def strTake500 (s : String) : String := String.mk (s.data.take 500)

/-- The prelude of `DownloadProcessor.startDownload` up to the `execa`
invocation: missing `baseUri`/`password` or a missing rclone path yields an
immediate `Error` return with no spawn; otherwise the download path is
stored, the directory is created (`mkdirOk`/`mkdirDetail` model the
filesystem call), status becomes `Downloading` with progress 0, and the
rclone subprocess is spawned with `rcloneArgs`. -/
def startDownloadPrelude (cfg : Option VrpConfig) (rclonePath : Option String)
    (downloadsDir : String) (mkdirOk : Bool) (mkdirDetail : Option String)
    (s : DriverState) (releaseName : String) : DriverState × PreludeResult :=
  if !jsTruthy (cfg.bind (·.baseUri)) || !jsTruthy (cfg.bind (·.password)) then
    (driverUpdateItemStatus s DownloadStatus.Error 0 (some "Missing VRP configuration")
       none none none,
     PreludeResult.earlyExit { success := false, startExtraction := false })
  else if !jsTruthy rclonePath then
    (driverUpdateItemStatus s DownloadStatus.Error 0 (some "Rclone dependency not found")
       none none none,
     PreludeResult.earlyExit { success := false, startExtraction := false })
  else
    let downloadPath := pathJoin downloadsDir releaseName
    let s1 :=
      { s with qitem :=
          (updateItem s.qitem { noUpdates with downloadPath := some (some downloadPath) }).1 }
    if !mkdirOk then
      (driverUpdateItemStatus s1 DownloadStatus.Error 0
         (some (strTake500 (mkdirErrorMsg mkdirDetail downloadPath))) none none none,
       PreludeResult.earlyExit { success := false, startExtraction := false })
    else
      (driverUpdateItemStatus s1 DownloadStatus.Downloading 0 none none none none,
       PreludeResult.spawn (rcloneArgs releaseName downloadPath
         ((cfg.bind (·.baseUri)).getD "")))

/-! ## `GameService.extractMetaArchive` failure classification -/

def wrongPasswordMarker : List Char := ("Wrong password").data

def wrongPasswordMsg : String := "Extraction failed: Wrong password for archive"

/-- The `wrongPassword` flag: set when any stdout or stderr data chunk of
the 7z process contains the case-sensitive marker `Wrong password`. -/
def extractWrongPassword (stdoutChunks stderrChunks : List String) : Bool :=
  stdoutChunks.any (fun c => containsSub wrongPasswordMarker c.data) ||
  stderrChunks.any (fun c => containsSub wrongPasswordMarker c.data)

/-- Awaiting the execa 7z promise: execa with default options rejects the
promise for every non-zero exit code, carrying the ExecaError message (the
same behavior the rclone handling in `startDownload` relies on); it
fulfills, with the result record, only for exit code 0. -/
def sevenZipAwait (exitCode : Int) (execaMessage : String) : Except String Int :=
  if exitCode ≠ 0 then Except.error execaMessage else Except.ok exitCode

/-- The inner try of `extractMetaArchive` from the await on, for a run
whose password decoded and whose 7z process was spawned: a rejection of the
awaited promise propagates as a thrown error; on fulfillment the code
checks `result.exitCode` and, when non-zero, classifies the failure — the
wrong-password branch first, else the generic message — but a fulfilled
await always carries exit code 0, so that check can never fire. -/
def extractInnerTry (stdoutChunks stderrChunks : List String) (exitCode : Int)
    (execaMessage stderrFull : String) : Except String Unit :=
  match sevenZipAwait exitCode execaMessage with
  | Except.error m => Except.error m
  | Except.ok code =>
      if code ≠ 0 then
        if extractWrongPassword stdoutChunks stderrChunks then Except.error wrongPasswordMsg
        else Except.error ("7z failed with exit code " ++ toString code ++ ": " ++ stderrFull)
      else Except.ok ()

/-- The observable outcome of such a run of `extractMetaArchive`: any error
thrown inside the inner try — including the rejection of the awaited 7z
promise — is caught by the inner catch and rethrown as
`Failed to use password: ` followed by the message of the caught error (an
ExecaError is an Error, so its message is used); the outer catch rethrows
unchanged. -/
def extractMetaArchiveRun (stdoutChunks stderrChunks : List String) (exitCode : Int)
    (execaMessage stderrFull : String) : Except String Unit :=
  match extractInnerTry stdoutChunks stderrChunks exitCode execaMessage stderrFull with
  | Except.error m => Except.error ("Failed to use password: " ++ m)
  | Except.ok u => Except.ok u

/-! ## Driver step relation

The mutations of the state of the single item that `DownloadProcessor`
performs:
the `startDownload` prelude writes, the data-event handler, process-exit
handling, and `cancelDownload` as invoked on user cancellation (final
status `Cancelled`, no message).  `ReachableState` is the set of states an
item can be driven into from a freshly enqueued entry. -/

inductive DriverStep : DriverState → DriverState → Prop
  | dataEvent (s : DriverState) (buffer data : List Char) :
      DriverStep s (processData s buffer data).1
  | userCancel (s : DriverState) :
      DriverStep s (cancelDownload s DownloadStatus.Cancelled none)
  | processExit (s : DriverState) (e : ExitResult) :
      DriverStep s (handleExit s e).1
  | configError (s : DriverState) :
      DriverStep s (driverUpdateItemStatus s DownloadStatus.Error 0
        (some "Missing VRP configuration") none none none)
  | rcloneError (s : DriverState) :
      DriverStep s (driverUpdateItemStatus s DownloadStatus.Error 0
        (some "Rclone dependency not found") none none none)
  | mkdirError (s : DriverState) (detail : Option String) (path : String) :
      DriverStep s (driverUpdateItemStatus s DownloadStatus.Error 0
        (some (strTake500 (mkdirErrorMsg detail path))) none none none)
  | setPath (s : DriverState) (p : String) :
      DriverStep s
        { s with qitem :=
            (updateItem s.qitem { noUpdates with downloadPath := some (some p) }).1 }
  | startDownloading (s : DriverState) :
      DriverStep s (driverUpdateItemStatus s DownloadStatus.Downloading 0 none none none none)
  | attachPid (s : DriverState) (pid : Nat) :
      DriverStep s
        { s with
          handle := true,
          qitem := (updateItem s.qitem { noUpdates with pid := some (some pid) }).1 }

/-- A freshly enqueued item (`addToQueue` appends with `status = Queued`). -/
def initialItem (r : String) : DownloadItem :=
  { releaseName := r, status := DownloadStatus.Queued, progress := 0, error := none,
    speed := none, eta := none, extractProgress := none, downloadPath := none, pid := none }

def initialState (r : String) : DriverState :=
  { qitem := some (initialItem r), handle := false, listeners := false, sigterms := 0 }

def ReachableState (r : String) (s : DriverState) : Prop :=
  Relation.ReflTransGen DriverStep (initialState r) s

/-- Predicate: the error field being non-empty implies the status is
`Error`. -/
def ErrImpliesErrStatus (s : DriverState) : Prop :=
  itemError s ≠ none → itemStatus s = some DownloadStatus.Error

/-! ## Concrete states used by witnesses and counterexamples -/

def exItem : DownloadItem :=
  { releaseName := "Example-v1", status := DownloadStatus.Downloading, progress := 0,
    error := none, speed := none, eta := none, extractProgress := none,
    downloadPath := none, pid := some 11 }

def exState : DriverState :=
  { qitem := some exItem, handle := true, listeners := true, sigterms := 0 }

def exQueuedItem : DownloadItem :=
  { exItem with status := DownloadStatus.Queued, pid := none }

def exQueuedState : DriverState :=
  { qitem := some exQueuedItem, handle := false, listeners := false, sigterms := 0 }

/-- The authentication-failure line used below: a full rclone stats line
(progress, speed and ETA present) whose text also carries the auth
marker. -/
def authLine : List Char := ("a, 5%, ok, ETA 9s authentication failed").data

/-- State after `startDownload` set a fresh item to `Downloading`. -/
def c8Path1 : DriverState :=
  driverUpdateItemStatus (initialState "Example-v1") DownloadStatus.Downloading 0
    none none none none

/-- State after a further data event whose line reports an authentication
failure (the driver cancels with final status `Error` and the auth
message). -/
def c8Path2 : DriverState := (processData c8Path1 [] (authLine ++ ['\n'])).1

/-- State after a subsequent user cancellation: the `Error` status is
kept but the error message is cleared. -/
def c8Path3 : DriverState := cancelDownload c8Path2 DownloadStatus.Cancelled none

/-! # Theorems -/

/-! ## C1: remote object identifier -/

/-- Sanity vector: MD5 of the empty input. -/
theorem md5_vector_empty :
    md5HexOfBytes (utf8Bytes "") = "d41d8cd98f00b204e9800998ecf8427e" := by
  decide

/-- Sanity vector: MD5 of "abc" (RFC 1321 test suite). -/
theorem md5_vector_abc :
    md5HexOfBytes (utf8Bytes "abc") = "900150983cd24fb0d6963f7d28e17f72" := by
  decide

theorem utf8Bytes_append (a b : String) :
    utf8Bytes (a ++ b) = utf8Bytes a ++ utf8Bytes b := by
  unfold utf8Bytes
  rw [String.data_append, List.flatMap_append]

theorem hexDigit_mem (n : Nat) : hexDigit n ∈ ("0123456789abcdef").data := by
  have hlen : ("0123456789abcdef").data.length = 16 := by decide
  have h16 : n % 16 < ("0123456789abcdef").data.length := by omega
  unfold hexDigit
  rw [List.getD_eq_getElem _ _ h16]
  exact List.getElem_mem h16

theorem md5Hex_chars_lower (m : List Nat) :
    ∀ c ∈ (md5HexOfBytes m).data, c ∈ ("0123456789abcdef").data := by
  intro c hc
  unfold md5HexOfBytes at hc
  rcases List.mem_flatMap.mp hc with ⟨b, _, hb⟩
  simp only [byteHex, List.mem_cons, List.not_mem_nil, or_false] at hb
  rcases hb with h | h <;> (rw [h]; exact hexDigit_mem _)

/-- C1: for every release name, the object identifier computed by
`DownloadProcessor.startDownload` (`gameNameHash`) equals the lowercase
hexadecimal MD5 digest of the UTF-8 bytes of the release name followed by a
single trailing newline byte (`specObjectId`); every character of the
identifier is a lowercase hexadecimal digit; and the rclone transfer
subprocess is invoked with the source `:http:/<objectId>` together with the
configured base URI (`--http-url baseUri`). -/
theorem objectId_matches_spec (r dl b : String) :
    gameNameHash r = specObjectId r ∧
    (∀ c ∈ (gameNameHash r).data, c ∈ ("0123456789abcdef").data) ∧
    rcloneArgs r dl b =
      ["copy", ":http:/" ++ specObjectId r, dl, "--http-url", b,
       "--no-check-certificate", "--progress", "--stats=1s", "--stats-one-line"] := by
  have hb : utf8Bytes (r ++ "\n") = utf8Bytes r ++ [10] := by
    rw [utf8Bytes_append]
    rfl
  have hh : gameNameHash r = specObjectId r := by
    unfold gameNameHash specObjectId
    rw [hb]
  refine ⟨hh, ?_, ?_⟩
  · intro c hc
    exact md5Hex_chars_lower (utf8Bytes (r ++ "\n")) c hc
  · unfold rcloneArgs rcloneSource
    rw [hh]

/-! ## Helper lemmas about the driver state operations -/

theorem driverUpd_none (s : DriverState) (st : DownloadStatus) (p : Nat)
    (err sp et : Option String) (ep : Option Nat) (h : s.qitem = none) :
    driverUpdateItemStatus s st p err sp et ep = s := by
  cases s
  simp_all [driverUpdateItemStatus, updateItem]

theorem driverUpd_frame (s : DriverState) (st : DownloadStatus) (p : Nat)
    (err sp et : Option String) (ep : Option Nat) :
    (driverUpdateItemStatus s st p err sp et ep).handle = s.handle ∧
    (driverUpdateItemStatus s st p err sp et ep).listeners = s.listeners ∧
    (driverUpdateItemStatus s st p err sp et ep).sigterms = s.sigterms :=
  ⟨rfl, rfl, rfl⟩

theorem driverUpd_some (s : DriverState) (it : DownloadItem) (st : DownloadStatus)
    (p : Nat) (err sp et : Option String) (ep : Option Nat) (h : s.qitem = some it) :
    ∃ it2, (driverUpdateItemStatus s st p err sp et ep).qitem = some it2 ∧
      it2.status = st ∧ it2.progress = p ∧ it2.error = err ∧ it2.speed = sp ∧
      it2.eta = et ∧ it2.releaseName = it.releaseName ∧
      it2.downloadPath = it.downloadPath ∧ it2.pid = it.pid := by
  have hq : (driverUpdateItemStatus s st p err sp et ep).qitem =
      some (applyUpdates it
        { status := some st, progress := some p, error := some err, speed := some sp,
          eta := some et,
          extractProgress :=
            if ep.isSome then some ep
            else if st ≠ DownloadStatus.Extracting ∧ st ≠ DownloadStatus.Completed then
              some none
            else none,
          downloadPath := none, pid := none }) := by
    unfold driverUpdateItemStatus updateItem
    simp [h]
  exact ⟨_, hq, rfl, rfl, rfl, rfl, rfl, rfl, rfl, rfl⟩

theorem cancel_frame (s : DriverState) (fs : DownloadStatus) (em : Option String) :
    (cancelDownload s fs em).handle = false ∧
    (cancelDownload s fs em).listeners = (if s.handle = true then false else s.listeners) ∧
    (cancelDownload s fs em).sigterms =
      (if s.handle = true then s.sigterms + 1 else s.sigterms) := by
  unfold cancelDownload
  cases hh : s.handle <;> cases hq : s.qitem <;> simp [hh, hq]

theorem cancel_none (s : DriverState) (fs : DownloadStatus) (em : Option String)
    (h : s.qitem = none) : (cancelDownload s fs em).qitem = none := by
  unfold cancelDownload
  cases hh : s.handle <;> simp [hh, h]

theorem cancel_spec (s : DriverState) (it : DownloadItem) (fs : DownloadStatus)
    (em : Option String) (h : s.qitem = some it) :
    ∃ it2, (cancelDownload s fs em).qitem = some it2 ∧
      it2.status =
        (if it.status = DownloadStatus.Error ∧ fs = DownloadStatus.Cancelled then it.status
         else fs) ∧
      it2.progress = (if fs = DownloadStatus.Cancelled then 0 else it.progress) ∧
      it2.error = (if fs = DownloadStatus.Error then jsOrStr em it.error else none) ∧
      it2.pid = none ∧ it2.speed = it.speed ∧ it2.eta = it.eta ∧
      it2.extractProgress = it.extractProgress ∧ it2.downloadPath = it.downloadPath ∧
      it2.releaseName = it.releaseName := by
  have hq : (cancelDownload s fs em).qitem =
      some (applyUpdates it
        { pid := some none,
          status :=
            if it.status = DownloadStatus.Error ∧ fs = DownloadStatus.Cancelled then none
            else some fs,
          progress := if fs = DownloadStatus.Cancelled then some 0 else none,
          error :=
            if fs = DownloadStatus.Error then some (jsOrStr em it.error) else some none,
          speed := none, eta := none, extractProgress := none, downloadPath := none }) := by
    unfold cancelDownload
    cases hh : s.handle <;> simp [hh, h, updateItem]
  refine ⟨_, hq, ?_, ?_, ?_, rfl, rfl, rfl, rfl, rfl, rfl⟩
  · show (if it.status = DownloadStatus.Error ∧ fs = DownloadStatus.Cancelled then none
        else some fs).getD it.status = _
    split_ifs <;> rfl
  · show (if fs = DownloadStatus.Cancelled then some 0 else none).getD it.progress = _
    split_ifs <;> rfl
  · show (if fs = DownloadStatus.Error then some (jsOrStr em it.error)
        else some none).getD it.error = _
    split_ifs <;> rfl

/-! ## C10: missing configuration -/

/-- C10 counterexample: with the base URI missing, `startDownload` writes
the message Missing VRP configuration, not the literal text
missing configuration quoted by the claim (which is not even a
substring). -/
theorem missing_config_message_counterexample :
    (startDownloadPrelude (some { baseUri := none, password := some "cGFzcw==" })
        (some "/usr/bin/rclone") "/downloads" true none exQueuedState "Example-v1").2 =
      PreludeResult.earlyExit { success := false, startExtraction := false } ∧
    itemError (startDownloadPrelude (some { baseUri := none, password := some "cGFzcw==" })
        (some "/usr/bin/rclone") "/downloads" true none exQueuedState "Example-v1").1 =
      some "Missing VRP configuration" ∧
    itemError (startDownloadPrelude (some { baseUri := none, password := some "cGFzcw==" })
        (some "/usr/bin/rclone") "/downloads" true none exQueuedState "Example-v1").1 ≠
      some "missing configuration" := by
  decide

/-- C10 (amended): if the endpoint configuration lacks the base URI or the
password, `startDownload` returns the failure outcome immediately — no
subprocess is spawned — and the item is set to `Error` with progress 0 and
the message Missing VRP configuration (the message quoted by the claim,
missing configuration, corrected to the actual text of the code). -/
theorem missing_config_no_spawn (cfg : Option VrpConfig) (rp : Option String)
    (dd : String) (mk : Bool) (md : Option String) (s : DriverState) (it : DownloadItem)
    (r : String) (hq : s.qitem = some it)
    (h : jsTruthy (cfg.bind (·.baseUri)) = false ∨ jsTruthy (cfg.bind (·.password)) = false) :
    (startDownloadPrelude cfg rp dd mk md s r).2 =
      PreludeResult.earlyExit { success := false, startExtraction := false } ∧
    ∃ it2, (startDownloadPrelude cfg rp dd mk md s r).1.qitem = some it2 ∧
      it2.status = DownloadStatus.Error ∧ it2.progress = 0 ∧
      it2.error = some "Missing VRP configuration" := by
  have hcond :
      (!jsTruthy (cfg.bind (·.baseUri)) || !jsTruthy (cfg.bind (·.password))) = true := by
    rcases h with h | h <;> simp [h]
  unfold startDownloadPrelude
  rw [if_pos hcond]
  rcases driverUpd_some s it DownloadStatus.Error 0 (some "Missing VRP configuration")
      none none none hq with ⟨it2, h1, h2, h3, h4, _⟩
  exact ⟨rfl, it2, h1, h2, h3, h4⟩

/-- C10 witness: the amended theorem applied to a concrete queued item and
a configuration missing its base URI. -/
theorem missing_config_no_spawn_witness :
    (startDownloadPrelude (some { baseUri := none, password := some "cGFzcw==" })
        (some "/usr/bin/rclone") "/downloads" true none exQueuedState "Example-v1").2 =
      PreludeResult.earlyExit { success := false, startExtraction := false } :=
  (missing_config_no_spawn (some { baseUri := none, password := some "cGFzcw==" })
    (some "/usr/bin/rclone") "/downloads" true none exQueuedState exQueuedItem
    "Example-v1" rfl (Or.inl (by decide))).1

/-! ## C9: cancel with no attached handle -/

/-- C9 counterexample: cancelling an item that has no attached process
handle is not a no-op on the item — a `Queued` item is forced to
`Cancelled`. -/
theorem cancel_no_handle_counterexample :
    exQueuedState.handle = false ∧
    (cancelDownload exQueuedState DownloadStatus.Cancelled none).qitem ≠
      exQueuedState.qitem ∧
    itemStatus (cancelDownload exQueuedState DownloadStatus.Cancelled none) =
      some DownloadStatus.Cancelled := by
  decide

/-- C9 (amended): when no process handle is attached, `cancelDownload`
sends no termination signal and leaves the process bookkeeping alone, but
it still updates the item: `pid` is cleared, `status` becomes the final
status (except `Error` is kept when cancelling an item already in
`Error`), `progress` is zeroed on `Cancelled`, and `error` is set
(`Error`) or cleared (`Cancelled`). -/
theorem cancel_no_handle_no_signal (s : DriverState) (it : DownloadItem)
    (fs : DownloadStatus) (em : Option String) (h : s.handle = false)
    (hq : s.qitem = some it) :
    (cancelDownload s fs em).sigterms = s.sigterms ∧
    (cancelDownload s fs em).listeners = s.listeners ∧
    (cancelDownload s fs em).handle = false ∧
    ∃ it2, (cancelDownload s fs em).qitem = some it2 ∧
      it2.status =
        (if it.status = DownloadStatus.Error ∧ fs = DownloadStatus.Cancelled then it.status
         else fs) ∧
      it2.progress = (if fs = DownloadStatus.Cancelled then 0 else it.progress) ∧
      it2.error = (if fs = DownloadStatus.Error then jsOrStr em it.error else none) ∧
      it2.pid = none := by
  obtain ⟨h1, h2, h3⟩ := cancel_frame s fs em
  rw [h] at h2 h3
  simp only [Bool.false_eq_true, if_false] at h2 h3
  rcases cancel_spec s it fs em hq with ⟨it2, ha, hb, hc, hd, he, _⟩
  exact ⟨h3, h2, h1, it2, ha, hb, hc, hd, he⟩

/-- C9 witness: the amended theorem applied to a concrete queued item with
no handle. -/
theorem cancel_no_handle_no_signal_witness :
    (cancelDownload exQueuedState DownloadStatus.Cancelled none).sigterms =
      exQueuedState.sigterms :=
  (cancel_no_handle_no_signal exQueuedState exQueuedItem DownloadStatus.Cancelled none
    rfl rfl).1

/-! ## C6: wrong-password classification in `extractMetaArchive` -/

/-- The wrong-password branch of `extractMetaArchive` is unreachable: for
every run, the outcome is success (exit 0) or the wrapped
`Failed to use password: ...` rethrow of the inner catch — never the
distinct wrong-password message, whatever the output contained. -/
theorem extractRun_never_wrong_password_msg (outs errs : List String) (exitCode : Int)
    (execaMessage stderrFull : String) :
    extractMetaArchiveRun outs errs exitCode execaMessage stderrFull ≠
      Except.error wrongPasswordMsg := by
  unfold extractMetaArchiveRun extractInnerTry sevenZipAwait
  by_cases hc : exitCode ≠ 0
  · rw [if_pos hc]
    dsimp only
    intro h
    injection h with h2
    have h0 : ("Failed to use password: " ++ execaMessage).data.getD 0 ' ' = 'F' := by
      rw [String.data_append]
      have he : ("Failed to use password: ").data =
          'F' :: ("ailed to use password: ").data := by decide
      rw [he]
      rfl
    rw [h2] at h0
    exact absurd h0 (by decide)
  · rw [if_neg hc]
    dsimp only
    rw [if_neg hc]
    intro h
    exact Except.noConfusion h

/-- C6: the claimed distinct wrong-password classification is dead code.
With default options execa rejects every non-zero 7z exit, so the
`result.exitCode` check after the await (the branch throwing
`Extraction failed: Wrong password for archive`) runs only after a zero
exit and can never fire; the rejection is caught by the inner catch and
rewrapped as `Failed to use password: ` plus the ExecaError message — the
same shape for a wrong password as for any other failure.  At the concrete
failing input (stdout carrying the marker, exit code 2) the run yields the
wrapped generic message, not the wrong-password message, and no input at
all can yield the wrong-password message. -/
theorem wrong_password_not_classified :
    extractWrongPassword ["ERROR: Wrong password : meta.7z"] [] = true ∧
    extractMetaArchiveRun ["ERROR: Wrong password : meta.7z"] [] 2
        "Command failed with exit code 2: 7z" "boom" =
      Except.error "Failed to use password: Command failed with exit code 2: 7z" ∧
    ("Failed to use password: Command failed with exit code 2: 7z" : String) ≠
      wrongPasswordMsg :=
  ⟨by decide, rfl, by decide⟩

/-! ## C4: authentication-failure detection -/

theorem progressStep_progress (s : DriverState) (it : DownloadItem) (l : List Char)
    (hq : s.qitem = some it) :
    ∃ it2, (progressStep s l).1.qitem = some it2 ∧
      ((progressStep s l).2 = [] ∧ it2.progress = it.progress ∨
       ∃ p, (progressStep s l).2 = [p] ∧ it.progress ≤ p ∧ it2.progress = p) ∧
      (progressStep s l).1.handle = s.handle := by
  unfold progressStep
  cases hp : parseProgress l with
  | none => exact ⟨it, hq, Or.inl ⟨rfl, rfl⟩, rfl⟩
  | some p =>
      dsimp only
      by_cases hg : itemProgress s ≤ p
      · rw [if_pos hg]
        rcases driverUpd_some s it DownloadStatus.Downloading p none
            (match parseSpeed l with | some v => some v | none => itemSpeed s)
            (match parseEta l with | some v => some v | none => itemEta s) none hq with
          ⟨it2, h1, _, h3, _⟩
        have hit : itemProgress s = it.progress := by simp [itemProgress, hq]
        exact ⟨it2, h1, Or.inr ⟨p, rfl, by rw [← hit]; exact hg, h3⟩, rfl⟩
      · rw [if_neg hg]
        exact ⟨it, hq, Or.inl ⟨rfl, rfl⟩, rfl⟩

/-- C4: on any output line containing an authentication-failure marker
(`Auth Error` or `authentication failed`), the data-event loop immediately
invokes `cancelDownload` with final status `Error` — the item ends the line
in status `Error` with the credential-failure message
"Auth failed (check VRP password?)" (distinct from the generic
"Download failed." transfer failure), the process handle is removed and
the process killed, without waiting for process exit. -/
theorem auth_failure_immediate_error (s : DriverState) (it : DownloadItem) (line : List Char)
    (hq : s.qitem = some it)
    (hm : (containsSub authMarker1 line || containsSub authMarker2 line) = true) :
    ∃ it2, (processLine s line).1.qitem = some it2 ∧
      it2.status = DownloadStatus.Error ∧
      it2.error = some authFailedMsg ∧
      (processLine s line).1.handle = false ∧
      authFailedMsg ≠ "Download failed." := by
  unfold processLine
  rw [if_pos hm]
  rcases progressStep_progress s it line hq with ⟨it1, h1, _, _⟩
  rcases cancel_spec (progressStep s line).1 it1 DownloadStatus.Error (some authFailedMsg) h1
    with ⟨it2, g1, g2, g3, g4, _⟩
  refine ⟨it2, g1, ?_, ?_, (cancel_frame _ _ _).1, by decide⟩
  · rw [g2]
    simp
  · rw [g4]
    simp [jsOrStr, authFailedMsg]

/-- C4 witness: a concrete `Downloading` item and a concrete line carrying
the `authentication failed` marker. -/
theorem auth_failure_immediate_error_witness :
    ∃ it2, (processLine exState authLine).1.qitem = some it2 ∧
      it2.status = DownloadStatus.Error ∧
      it2.error = some authFailedMsg ∧
      (processLine exState authLine).1.handle = false ∧
      authFailedMsg ≠ "Download failed." :=
  auth_failure_immediate_error exState exItem authLine rfl (by decide)

/-! ## C3: user cancellation of a `Downloading` item -/

theorem processData_stuck (s : DriverState) (hs : itemStatus s ≠ some DownloadStatus.Downloading)
    (hh : s.handle = false) : ∀ buf d, processData s buf d = (s, buf, []) := by
  intro buf d
  unfold processData
  cases hq : s.qitem with
  | none => simp [dataStop, hh]
  | some it =>
      have hne : it.status ≠ DownloadStatus.Downloading := by
        intro hc
        exact hs (by simp [itemStatus, hq, hc])
      simp [hne, dataStop, hh]

theorem runChunks_stuck (s : DriverState)
    (hs : itemStatus s ≠ some DownloadStatus.Downloading) (hh : s.handle = false) :
    ∀ buf chunks, runChunks s buf chunks = (s, buf, []) := by
  intro buf chunks
  induction chunks generalizing buf with
  | nil => rfl
  | cons d ds ih =>
      unfold runChunks
      rw [processData_stuck s hs hh buf d]
      dsimp only
      rw [ih buf]
      rfl

/-- C3: cancelling an item whose status is `Downloading` (user
cancellation: final status `Cancelled`, no message) leaves the item with
`status = Cancelled`, `progress = 0`, no error and no pid, with listeners
detached and the handle removed; afterwards every further data event of
that run is a no-op — the handler re-checks the current item status on
each event, so no progress update is ever applied after the
cancellation. -/
theorem cancel_downloading_terminal (s : DriverState) (it : DownloadItem)
    (hq : s.qitem = some it) (hd : it.status = DownloadStatus.Downloading) :
    ∃ it2, (cancelDownload s DownloadStatus.Cancelled none).qitem = some it2 ∧
      it2.status = DownloadStatus.Cancelled ∧ it2.progress = 0 ∧ it2.error = none ∧
      it2.pid = none ∧
      (cancelDownload s DownloadStatus.Cancelled none).handle = false ∧
      ∀ buf chunks,
        runChunks (cancelDownload s DownloadStatus.Cancelled none) buf chunks =
          (cancelDownload s DownloadStatus.Cancelled none, buf, []) := by
  rcases cancel_spec s it DownloadStatus.Cancelled none hq with
    ⟨it2, ha, hb, hc, hd2, he, _⟩
  have hb2 : it2.status = DownloadStatus.Cancelled := by
    rw [hb, hd]
    simp
  have hc2 : it2.progress = 0 := by
    rw [hc]
    simp
  have hd3 : it2.error = none := by
    rw [hd2]
    simp
  have hhandle : (cancelDownload s DownloadStatus.Cancelled none).handle = false :=
    (cancel_frame _ _ _).1
  refine ⟨it2, ha, hb2, hc2, hd3, he, hhandle, ?_⟩
  intro buf chunks
  exact runChunks_stuck _ (by simp [itemStatus, ha, hb2]) hhandle buf chunks

/-- C3 witness: the theorem applied to a concrete `Downloading` item with
an attached handle. -/
theorem cancel_downloading_terminal_witness :
    ∃ it2, (cancelDownload exState DownloadStatus.Cancelled none).qitem = some it2 ∧
      it2.status = DownloadStatus.Cancelled ∧ it2.progress = 0 ∧ it2.error = none ∧
      it2.pid = none ∧
      (cancelDownload exState DownloadStatus.Cancelled none).handle = false ∧
      ∀ buf chunks,
        runChunks (cancelDownload exState DownloadStatus.Cancelled none) buf chunks =
          (cancelDownload exState DownloadStatus.Cancelled none, buf, []) :=
  cancel_downloading_terminal exState exItem rfl rfl

/-! ## C5: process-exit classification -/

theorem cleanup_fields (s : DriverState) (it : DownloadItem) (hq : s.qitem = some it) :
    ∃ it1, (cleanupHandle s).qitem = some it1 ∧ it1.status = it.status ∧
      it1.progress = it.progress ∧ it1.error = it.error := by
  unfold cleanupHandle
  by_cases hh : s.handle = true
  · rw [if_pos hh]
    refine ⟨applyUpdates it pidClear, ?_, rfl, rfl, rfl⟩
    simp [updateItem, hq]
  · rw [if_neg hh]
    exact ⟨it, hq, rfl, rfl, rfl⟩

/-- C5: for every exit of the transfer process while the item is still
`Downloading`: (1) exit code 143 (the expected SIGTERM of our own
cancellation) is ignored — the status, progress and error of the item are
left
untouched and the outcome is failure without extraction; (2) any other
non-zero exit (execa rejection, not `isCanceled`) sets the item to `Error`
with the diagnostic message built from `shortMessage`/`message` plus the
last five output lines, truncated to at most 500 characters; (3) a zero
exit yields the success outcome that signals the extraction stage. -/
theorem exit_code_classification (s : DriverState) (it : DownloadItem)
    (hq : s.qitem = some it) (hd : it.status = DownloadStatus.Downloading) :
    (∀ c : Bool, ∀ sm m out : String, ∃ it1,
        (handleExit s (ExitResult.failed 143 c sm m out)).1.qitem = some it1 ∧
        it1.status = it.status ∧ it1.progress = it.progress ∧ it1.error = it.error ∧
        (handleExit s (ExitResult.failed 143 c sm m out)).2 =
          { success := false, startExtraction := false }) ∧
    (∀ code : Int, ∀ sm m out : String, code ≠ 143 → ∃ it1,
        (handleExit s (ExitResult.failed code false sm m out)).1.qitem = some it1 ∧
        it1.status = DownloadStatus.Error ∧
        it1.error = some (String.mk (mkErrorMessage sm.data m.data out.data)) ∧
        (mkErrorMessage sm.data m.data out.data).length ≤ 500 ∧
        (handleExit s (ExitResult.failed code false sm m out)).2 =
          { success := false, startExtraction := false }) ∧
    (handleExit s ExitResult.ok).2 = { success := true, startExtraction := true } := by
  have hst : itemStatus s = some DownloadStatus.Downloading := by
    simp [itemStatus, hq, hd]
  refine ⟨?_, ?_, ?_⟩
  · intro c sm m out
    have hred : handleExit s (ExitResult.failed 143 c sm m out) =
        (cleanupHandle s, { success := false, startExtraction := false }) := by
      unfold handleExit
      dsimp only
      rw [if_pos rfl]
    rcases cleanup_fields s it hq with ⟨it1, g1, g2, g3, g4⟩
    rw [hred]
    exact ⟨it1, g1, g2, g3, g4, rfl⟩
  · intro code sm m out hcode
    have hguard : itemStatus s ≠ some DownloadStatus.Cancelled ∧
        itemStatus s ≠ some DownloadStatus.Error := by
      rw [hst]
      simp
    have hred : handleExit s (ExitResult.failed code false sm m out) =
        (driverUpdateItemStatus (cleanupHandle s) DownloadStatus.Error (itemProgress s)
           (some (String.mk (mkErrorMessage sm.data m.data out.data))) none none none,
         { success := false, startExtraction := false }) := by
      unfold handleExit
      dsimp only
      rw [if_neg hcode, if_neg (by simp), if_pos hguard]
    rcases cleanup_fields s it hq with ⟨it1, g1, _⟩
    rcases driverUpd_some (cleanupHandle s) it1 DownloadStatus.Error (itemProgress s)
        (some (String.mk (mkErrorMessage sm.data m.data out.data))) none none none g1 with
      ⟨it2, k1, k2, _, k4, _⟩
    rw [hred]
    refine ⟨it2, k1, k2, k4, ?_, rfl⟩
    unfold mkErrorMessage
    dsimp only
    exact List.length_take_le _ _
  · unfold handleExit
    rw [hq]
    dsimp only
    rw [if_pos hd]

/-- C5 witness: the theorem applied to a concrete `Downloading` item with
an attached handle; the zero-exit conjunct instantiated. -/
theorem exit_code_classification_witness :
    (handleExit exState ExitResult.ok).2 = { success := true, startExtraction := true } :=
  (exit_code_classification exState exItem rfl rfl).2.2

/-! ## C2: progress monotonicity -/

theorem getLastD_append : ∀ (e1 : List Nat) (p : Nat) (e2 : List Nat),
    (e1 ++ e2).getLastD p = e2.getLastD (e1.getLastD p)
  | [], _, _ => rfl
  | a :: t, p, e2 => by
      rw [List.cons_append, List.getLastD_cons, List.getLastD_cons]
      exact getLastD_append t a e2

theorem chain_glue : ∀ (e1 : List Nat) (p : Nat) (e2 : List Nat),
    List.Chain' (· ≤ ·) (p :: e1) → List.Chain' (· ≤ ·) (e1.getLastD p :: e2) →
    List.Chain' (· ≤ ·) (p :: e1 ++ e2)
  | [], p, e2, _, h2 => by simpa using h2
  | a :: t, p, e2, h1, h2 => by
      rw [List.getLastD_cons] at h2
      have hsplit := List.chain'_cons.mp h1
      exact List.chain'_cons.mpr ⟨hsplit.1, chain_glue t a e2 hsplit.2 h2⟩

theorem processLine_progress (s : DriverState) (it : DownloadItem) (l : List Char)
    (hq : s.qitem = some it) :
    ∃ it2, (processLine s l).1.qitem = some it2 ∧
      ((processLine s l).2 = [] ∧ it2.progress = it.progress ∨
       ∃ p, (processLine s l).2 = [p] ∧ it.progress ≤ p ∧ it2.progress = p) := by
  unfold processLine
  by_cases hc : (containsSub authMarker1 l || containsSub authMarker2 l) = true
  · rw [if_pos hc]
    rcases progressStep_progress s it l hq with ⟨it1, h1, hrel, _⟩
    rcases cancel_spec (progressStep s l).1 it1 DownloadStatus.Error (some authFailedMsg) h1
      with ⟨it2, g1, _, g3, _⟩
    have hp2 : it2.progress = it1.progress := by
      rw [g3]
      simp
    refine ⟨it2, g1, ?_⟩
    rcases hrel with ⟨he, hpe⟩ | ⟨p, he, hle, hpe⟩
    · exact Or.inl ⟨he, by rw [hp2, hpe]⟩
    · exact Or.inr ⟨p, he, hle, by rw [hp2, hpe]⟩
  · rw [if_neg hc]
    rcases progressStep_progress s it l hq with ⟨it1, h1, hrel, _⟩
    exact ⟨it1, h1, hrel⟩

theorem processLines_chain (ls : List (List Char)) :
    ∀ (s : DriverState) (it : DownloadItem), s.qitem = some it →
    ∃ it2, (processLines s ls).1.qitem = some it2 ∧
      List.Chain' (· ≤ ·) (it.progress :: (processLines s ls).2) ∧
      it2.progress = ((processLines s ls).2).getLastD it.progress := by
  induction ls with
  | nil =>
      intro s it hq
      exact ⟨it, hq, List.chain'_singleton _, rfl⟩
  | cons l ls ih =>
      intro s it hq
      rcases processLine_progress s it l hq with ⟨it1, h1, hrel⟩
      rcases ih (processLine s l).1 it1 h1 with ⟨it2, g1, g2, g3⟩
      refine ⟨it2, g1, ?_, ?_⟩
      · show List.Chain' (· ≤ ·)
          (it.progress :: ((processLine s l).2 ++ (processLines (processLine s l).1 ls).2))
        rcases hrel with ⟨he, hpe⟩ | ⟨p, he, hle, hpe⟩
        · rw [he, List.nil_append, ← hpe]
          exact g2
        · rw [he, List.singleton_append]
          rw [hpe] at g2
          exact List.chain'_cons.mpr ⟨hle, g2⟩
      · show it2.progress =
          ((processLine s l).2 ++ (processLines (processLine s l).1 ls).2).getLastD it.progress
        rcases hrel with ⟨he, hpe⟩ | ⟨p, he, hle, hpe⟩
        · rw [he, List.nil_append, ← hpe]
          exact g3
        · rw [he, List.singleton_append, List.getLastD_cons]
          rw [hpe] at g3
          exact g3

theorem dataStop_spec (s : DriverState) (buf : List Char) :
    (dataStop s buf).1.qitem = s.qitem ∧ (dataStop s buf).2.2 = [] ∧
    (dataStop s buf).2.1 = buf := by
  unfold dataStop
  by_cases hh : s.handle = true
  · rw [if_pos hh]
    exact ⟨rfl, rfl, rfl⟩
  · rw [if_neg hh]
    exact ⟨rfl, rfl, rfl⟩

theorem itemProgress_congr (a b : DriverState) (h : a.qitem = b.qitem) :
    itemProgress a = itemProgress b := by
  unfold itemProgress
  rw [h]

theorem itemProgress_some (a : DriverState) (it : DownloadItem) (h : a.qitem = some it) :
    itemProgress a = it.progress := by
  simp [itemProgress, h]

theorem processData_chain (s : DriverState) (buf d : List Char) :
    List.Chain' (· ≤ ·) (itemProgress s :: (processData s buf d).2.2) ∧
    itemProgress (processData s buf d).1 =
      ((processData s buf d).2.2).getLastD (itemProgress s) := by
  unfold processData
  cases hq : s.qitem with
  | none =>
      obtain ⟨d1, d2, _⟩ := dataStop_spec s buf
      rw [d2]
      refine ⟨List.chain'_singleton _, ?_⟩
      exact itemProgress_congr _ s (by rw [d1])
  | some it =>
      dsimp only
      by_cases hd : it.status ≠ DownloadStatus.Downloading
      · rw [if_pos hd]
        obtain ⟨d1, d2, _⟩ := dataStop_spec s buf
        rw [d2]
        refine ⟨List.chain'_singleton _, ?_⟩
        exact itemProgress_congr _ s (by rw [d1])
      · rw [if_neg hd]
        rcases processLines_chain (chunkPlan buf d).1 s it hq with ⟨it2, g1, g2, g3⟩
        have hip : itemProgress s = it.progress := by
          simp [itemProgress, hq]
        constructor
        · show List.Chain' (· ≤ ·)
            (itemProgress s :: (processLines s (chunkPlan buf d).1).2)
          rw [hip]
          exact g2
        · show itemProgress (processLines s (chunkPlan buf d).1).1 =
            ((processLines s (chunkPlan buf d).1).2).getLastD (itemProgress s)
          rw [hip, itemProgress_some _ it2 g1]
          exact g3

theorem runChunks_chain (chunks : List (List Char)) :
    ∀ (s : DriverState) (buf : List Char),
    List.Chain' (· ≤ ·) (itemProgress s :: (runChunks s buf chunks).2.2) ∧
    itemProgress (runChunks s buf chunks).1 =
      ((runChunks s buf chunks).2.2).getLastD (itemProgress s) := by
  induction chunks with
  | nil =>
      intro s buf
      exact ⟨List.chain'_singleton _, rfl⟩
  | cons d ds ih =>
      intro s buf
      obtain ⟨c1, l1⟩ := processData_chain s buf d
      obtain ⟨c2, l2⟩ := ih (processData s buf d).1 (processData s buf d).2.1
      constructor
      · show List.Chain' (· ≤ ·) (itemProgress s ::
          ((processData s buf d).2.2 ++
           (runChunks (processData s buf d).1 (processData s buf d).2.1 ds).2.2))
        apply chain_glue _ _ _ c1
        rw [← l1]
        exact c2
      · show itemProgress (runChunks (processData s buf d).1 (processData s buf d).2.1 ds).1 =
          ((processData s buf d).2.2 ++
           (runChunks (processData s buf d).1 (processData s buf d).2.1 ds).2.2).getLastD
            (itemProgress s)
        rw [getLastD_append, ← l1]
        exact l2

/-- C2: progress updates are monotone.  Per line, an update is emitted only
when the parsed percentage is at least the current (last recorded)
item progress; consequently, over every sequence of data events of a run,
the starting progress followed by all emitted progress values forms a
non-decreasing chain — recorded progress never regresses. -/
theorem progress_monotone (s : DriverState) (buffer : List Char)
    (chunks : List (List Char)) :
    List.Chain' (· ≤ ·) (itemProgress s :: (runChunks s buffer chunks).2.2) ∧
    ∀ (s2 : DriverState) (it : DownloadItem) (l : List Char) (p : Nat),
      s2.qitem = some it → (processLine s2 l).2 = [p] → it.progress ≤ p := by
  refine ⟨(runChunks_chain chunks s buffer).1, ?_⟩
  intro s2 it l p hq he
  rcases processLine_progress s2 it l hq with ⟨it2, _, hrel⟩
  rcases hrel with ⟨hnil, _⟩ | ⟨p2, he2, hle, _⟩
  · rw [hnil] at he
    exact absurd he (by simp)
  · rw [he2] at he
    injection he with h1 _
    rw [← h1]
    exact hle

/-- C2 witness: a concrete emitted update obeys the guard (a line parsing
to 40% emitted from a fresh item at progress 0). -/
theorem progress_monotone_witness : exItem.progress ≤ 40 :=
  (progress_monotone exState [] []).2 exState exItem ("b, 40%, y, ETA 2s").data 40 rfl
    (by decide)

/-! ## C7: line buffering across data events -/

/-- C7 counterexample: the same total output, split at a line boundary into
two data events, parses differently from unsplit arrival.  The first line
`a, 40%, x` is complete (its newline arrived) but fails the ETA pattern, so
it is re-buffered with its terminating newline discarded; unsplit, both
lines are parsed and both percentages are emitted. -/
theorem line_buffering_split_counterexample :
    (runChunks exState [] [("a, 40%, x\n").data, ("b, 50%, y, ETA 2s\n").data]).2.2 =
      [40] ∧
    (runChunks exState [] [("a, 40%, x\nb, 50%, y, ETA 2s\n").data]).2.2 = [40, 50] ∧
    ([40] : List Nat) ≠ [40, 50] := by
  decide

/-- C7 (amended): the driver buffers the trailing fragment and parses only
the lines it deems complete — the final fragment is parsed in the same
event only when it matches both the progress and the ETA patterns,
otherwise it is re-buffered (in particular, a lone fragment lacking the
full pattern is never parsed).  The split-invariance claimed by the spec
does not hold: re-buffering drops the terminating separator of the
fragment, so
distinct complete lines can merge across events (see the
counterexample). -/
theorem line_buffering_mechanism (buffer data : List Char) (lines : List (List Char))
    (hl : lines = (splitLines (buffer ++ data)).filter (fun l => 0 < l.length)) :
    (lines = [] → chunkPlan buffer data = ([], buffer ++ data)) ∧
    (lines ≠ [] →
      (testTransfer (lines.getLastD []) && testEta (lines.getLastD [])) = true →
      chunkPlan buffer data = (lines, [])) ∧
    (lines ≠ [] →
      (testTransfer (lines.getLastD []) && testEta (lines.getLastD [])) = false →
      chunkPlan buffer data = (lines.dropLast, lines.getLastD [])) := by
  refine ⟨?_, ?_, ?_⟩
  · intro h
    rw [h] at hl
    unfold chunkPlan
    dsimp only
    rw [← hl]
  · intro hne hcomplete
    unfold chunkPlan
    dsimp only
    rw [← hl]
    cases hcase : lines with
    | nil => exact absurd hcase hne
    | cons a rest =>
        rw [hcase] at hcomplete
        dsimp only
        rw [if_pos hcomplete]
  · intro hne hcomplete
    unfold chunkPlan
    dsimp only
    rw [← hl]
    cases hcase : lines with
    | nil => exact absurd hcase hne
    | cons a rest =>
        rw [hcase] at hcomplete
        dsimp only
        rw [if_neg (by rw [hcomplete]; exact Bool.false_ne_true)]

/-- C7 witness: a lone fragment that fails the ETA pattern is re-buffered
and nothing is parsed in that event. -/
theorem line_buffering_mechanism_witness :
    chunkPlan [] ("a, 40%, x").data =
      (([("a, 40%, x").data] : List (List Char)).dropLast,
       ([("a, 40%, x").data] : List (List Char)).getLastD []) :=
  (line_buffering_mechanism [] ("a, 40%, x").data [("a, 40%, x").data] (by decide)).2.2
    (by decide) (by decide)

/-! ## C8: the error-field invariant -/

theorem errStatus_congr (a b : DriverState) (h : a.qitem = b.qitem)
    (hIn : ErrImpliesErrStatus b) : ErrImpliesErrStatus a := by
  unfold ErrImpliesErrStatus itemError itemStatus at *
  rw [h]
  exact hIn

theorem errStatus_driverUpd (s : DriverState) (st : DownloadStatus) (p : Nat)
    (err sp et : Option String) (ep : Option Nat)
    (hcond : err ≠ none → st = DownloadStatus.Error) :
    ErrImpliesErrStatus (driverUpdateItemStatus s st p err sp et ep) := by
  intro hne
  cases hq : s.qitem with
  | none =>
      rw [driverUpd_none s st p err sp et ep hq] at hne
      unfold itemError at hne
      rw [hq] at hne
      exact absurd rfl hne
  | some it =>
      rcases driverUpd_some s it st p err sp et ep hq with ⟨it2, h1, h2, _, h4, _⟩
      have hErr : itemError (driverUpdateItemStatus s st p err sp et ep) = err := by
        unfold itemError
        rw [h1]
        simp [h4]
      rw [hErr] at hne
      unfold itemStatus
      rw [h1]
      simp only [Option.map_some']
      rw [h2, hcond hne]

theorem errStatus_cancel (s : DriverState) (fs : DownloadStatus) (em : Option String)
    (hfs : fs = DownloadStatus.Cancelled ∨ fs = DownloadStatus.Error) :
    ErrImpliesErrStatus (cancelDownload s fs em) := by
  intro hne
  cases hq : s.qitem with
  | none =>
      have := cancel_none s fs em hq
      unfold itemError at hne
      rw [this] at hne
      exact absurd rfl hne
  | some it =>
      rcases cancel_spec s it fs em hq with ⟨it2, h1, h2, _, h4, _⟩
      have hErr : itemError (cancelDownload s fs em) = it2.error := by
        unfold itemError
        rw [h1]
        simp
      rcases hfs with h | h
      · rw [hErr, h4, h] at hne
        simp at hne
      · unfold itemStatus
        rw [h1]
        simp only [Option.map_some']
        rw [h2, h]
        simp

theorem errStatus_updateNoErr (s q2 : DriverState) (u : ItemUpdates)
    (hstU : u.status = none) (herrU : u.error = none)
    (hq2 : q2.qitem = (updateItem s.qitem u).1) (hIn : ErrImpliesErrStatus s) :
    ErrImpliesErrStatus q2 := by
  intro hne
  cases hq : s.qitem with
  | none =>
      rw [hq] at hq2
      unfold itemError at hne
      rw [hq2] at hne
      exact absurd rfl hne
  | some it =>
      rw [hq] at hq2
      have hq2' : q2.qitem = some (applyUpdates it u) := hq2
      have hErr : (applyUpdates it u).error = it.error := by
        unfold applyUpdates
        rw [herrU]
        rfl
      have hSt : (applyUpdates it u).status = it.status := by
        unfold applyUpdates
        rw [hstU]
        rfl
      have hne' : itemError s ≠ none := by
        unfold itemError at hne ⊢
        rw [hq2'] at hne
        rw [hq]
        simp only [Option.some_bind] at hne ⊢
        rw [hErr] at hne
        exact hne
      have := hIn hne'
      unfold itemStatus at this ⊢
      rw [hq] at this
      rw [hq2']
      simp only [Option.map_some'] at this ⊢
      rw [hSt]
      exact this

theorem errStatus_cleanup (s : DriverState) (hIn : ErrImpliesErrStatus s) :
    ErrImpliesErrStatus (cleanupHandle s) := by
  unfold cleanupHandle
  by_cases hh : s.handle = true
  · rw [if_pos hh]
    exact errStatus_updateNoErr s _ pidClear rfl rfl rfl hIn
  · rw [if_neg hh]
    exact hIn

theorem status_some_of_itemStatus (s : DriverState) (it : DownloadItem)
    (hq : s.qitem = some it) (st : DownloadStatus) (h : itemStatus s = some st) :
    it.status = st := by
  unfold itemStatus at h
  rw [hq] at h
  simpa using h

theorem itemStatus_cleanup (s : DriverState) :
    itemStatus (cleanupHandle s) = itemStatus s := by
  unfold cleanupHandle
  by_cases hh : s.handle = true
  · rw [if_pos hh]
    unfold itemStatus
    cases hq : s.qitem with
    | none => simp [updateItem]
    | some it => simp [updateItem, applyUpdates, pidClear, noUpdates]
  · rw [if_neg hh]

theorem errStatus_errOnly (s1 : DriverState) (msg : String)
    (hst : itemStatus s1 = some DownloadStatus.Error) :
    ErrImpliesErrStatus { s1 with qitem := (updateItem s1.qitem (errOnly msg)).1 } := by
  intro _
  cases hq : s1.qitem with
  | none =>
      unfold itemStatus at hst
      rw [hq] at hst
      exact absurd hst (by simp)
  | some it =>
      have hs : it.status = DownloadStatus.Error := status_some_of_itemStatus s1 it hq _ hst
      unfold itemStatus
      simp [updateItem, applyUpdates, errOnly, noUpdates, hs]

theorem errStatus_processLine (s : DriverState) (l : List Char)
    (hIn : ErrImpliesErrStatus s) : ErrImpliesErrStatus (processLine s l).1 := by
  unfold processLine
  by_cases hc : (containsSub authMarker1 l || containsSub authMarker2 l) = true
  · rw [if_pos hc]
    exact errStatus_cancel _ _ _ (Or.inr rfl)
  · rw [if_neg hc]
    unfold progressStep
    cases hp : parseProgress l with
    | none => exact hIn
    | some p =>
        dsimp only
        by_cases hg : itemProgress s ≤ p
        · rw [if_pos hg]
          exact errStatus_driverUpd _ _ _ none _ _ _ (fun h => absurd rfl h)
        · rw [if_neg hg]
          exact hIn

theorem errStatus_processLines (ls : List (List Char)) :
    ∀ s : DriverState, ErrImpliesErrStatus s → ErrImpliesErrStatus (processLines s ls).1 := by
  induction ls with
  | nil => exact fun s h => h
  | cons l ls ih =>
      intro s hIn
      exact ih (processLine s l).1 (errStatus_processLine s l hIn)

theorem errStatus_processData (s : DriverState) (buf d : List Char)
    (hIn : ErrImpliesErrStatus s) : ErrImpliesErrStatus (processData s buf d).1 := by
  unfold processData
  cases hq : s.qitem with
  | none =>
      dsimp only
      exact errStatus_congr _ s (dataStop_spec s buf).1 hIn
  | some it =>
      dsimp only
      by_cases hd : it.status ≠ DownloadStatus.Downloading
      · rw [if_pos hd]
        exact errStatus_congr _ s (dataStop_spec s buf).1 hIn
      · rw [if_neg hd]
        exact errStatus_processLines (chunkPlan buf d).1 s hIn

theorem errStatus_handleExit (s : DriverState) (e : ExitResult)
    (hIn : ErrImpliesErrStatus s) : ErrImpliesErrStatus (handleExit s e).1 := by
  cases e with
  | ok =>
      unfold handleExit
      cases hq : s.qitem with
      | none =>
          dsimp only
          exact errStatus_cleanup s hIn
      | some it =>
          dsimp only
          by_cases hd : it.status = DownloadStatus.Downloading
          · rw [if_pos hd]
            exact errStatus_updateNoErr s _ pidClear rfl rfl (by rw [hq]) hIn
          · rw [if_neg hd]
            exact errStatus_cleanup s hIn
  | failed code isCanceled sm m out =>
      unfold handleExit
      dsimp only
      by_cases h143 : code = 143
      · rw [if_pos h143]
        exact errStatus_cleanup s hIn
      · rw [if_neg h143]
        cases isCanceled with
        | true =>
            rw [if_pos rfl]
            by_cases hguard : itemStatus s ≠ some DownloadStatus.Cancelled ∧
                itemStatus s ≠ some DownloadStatus.Error
            · rw [if_pos hguard]
              exact errStatus_driverUpd _ _ _ none _ _ _ (fun h => absurd rfl h)
            · rw [if_neg hguard]
              exact errStatus_cleanup s hIn
        | false =>
            rw [if_neg (by simp)]
            by_cases hguard : itemStatus s ≠ some DownloadStatus.Cancelled ∧
                itemStatus s ≠ some DownloadStatus.Error
            · rw [if_pos hguard]
              exact errStatus_driverUpd _ _ _ (some _) _ _ _ (fun _ => rfl)
            · rw [if_neg hguard]
              by_cases hErr : itemStatus s = some DownloadStatus.Error
              · rw [if_pos hErr]
                have hst1 : itemStatus (cleanupHandle s) = some DownloadStatus.Error := by
                  rw [itemStatus_cleanup]
                  exact hErr
                exact errStatus_errOnly (cleanupHandle s) _ hst1
              · rw [if_neg hErr]
                exact errStatus_cleanup s hIn
  | thrown m =>
      unfold handleExit
      dsimp only
      by_cases hguard : itemStatus s ≠ some DownloadStatus.Cancelled ∧
          itemStatus s ≠ some DownloadStatus.Error
      · rw [if_pos hguard]
        exact errStatus_driverUpd _ _ _ (some _) _ _ _ (fun _ => rfl)
      · rw [if_neg hguard]
        by_cases hErr : itemStatus s = some DownloadStatus.Error
        · rw [if_pos hErr]
          have hst1 : itemStatus (cleanupHandle s) = some DownloadStatus.Error := by
            rw [itemStatus_cleanup]
            exact hErr
          exact errStatus_errOnly (cleanupHandle s) _ hst1
        · rw [if_neg hErr]
          exact errStatus_cleanup s hIn

/-- C8 counterexample: the invariant "`error` is non-empty iff `status` is
`Error` or `InstallError`" fails on a reachable state: start a download,
receive an auth-failure line (the driver cancels with `Error` and a
message), then user-cancel — `cancelDownload` keeps the `Error` status but
clears the error message. -/
theorem err_field_invariant_counterexample :
    ReachableState "Example-v1" c8Path3 ∧
    itemStatus c8Path3 = some DownloadStatus.Error ∧ itemError c8Path3 = none := by
  refine ⟨?_, by decide, by decide⟩
  have h1 : DriverStep (initialState "Example-v1") c8Path1 :=
    DriverStep.startDownloading _
  have h2 : DriverStep c8Path1 c8Path2 := DriverStep.dataEvent _ [] (authLine ++ ['\n'])
  have h3 : DriverStep c8Path2 c8Path3 := DriverStep.userCancel _
  exact Relation.ReflTransGen.head h1
    (Relation.ReflTransGen.head h2 (Relation.ReflTransGen.single h3))

/-- C8 (amended): one direction of the invariant holds on every reachable
state: a non-empty `error` field implies `status = Error` (the driver never
produces `InstallError`).  The converse fails — user-cancelling an item
already in `Error` keeps the status but clears the message (see the
counterexample). -/
theorem err_field_only_error_reachable (r : String) (s : DriverState)
    (h : ReachableState r s) : ErrImpliesErrStatus s := by
  unfold ReachableState at h
  induction h with
  | refl =>
      intro hne
      unfold itemError initialState initialItem at hne
      simp at hne
  | tail hsteps hstep ih =>
      cases hstep with
      | dataEvent buffer data => exact errStatus_processData _ buffer data ih
      | userCancel => exact errStatus_cancel _ _ _ (Or.inl rfl)
      | processExit e => exact errStatus_handleExit _ e ih
      | configError => exact errStatus_driverUpd _ _ _ _ _ _ _ (fun _ => rfl)
      | rcloneError => exact errStatus_driverUpd _ _ _ _ _ _ _ (fun _ => rfl)
      | mkdirError detail path =>
          exact errStatus_driverUpd _ _ _ _ _ _ _ (fun _ => rfl)
      | setPath p => exact errStatus_updateNoErr _ _ _ rfl rfl rfl ih
      | startDownloading =>
          exact errStatus_driverUpd _ _ _ none _ _ _ (fun h2 => absurd rfl h2)
      | attachPid pid => exact errStatus_updateNoErr _ _ _ rfl rfl rfl ih

/-- C8 witness: the amended theorem applied to the reachable state reached
by a failed configuration check, whose error field is set. -/
theorem err_field_only_error_reachable_witness :
    itemStatus (driverUpdateItemStatus (initialState "Example-v1") DownloadStatus.Error 0
      (some "Missing VRP configuration") none none none) = some DownloadStatus.Error :=
  err_field_only_error_reachable "Example-v1" _
    (Relation.ReflTransGen.single (DriverStep.configError _)) (by decide)

end ApprenticeVr
